import Mathlib

/-!
Verification of the soroban-debugger debugging engine.

The file shallowly embeds the `DebuggerEngine` of `src/debugger/engine.rs`
together with its collaborators.  The engine source is embedded line by
line; collaborators that live outside the provided sources
(`BreakpointManager`, `DebugState`, the trace record types and the
inspectors) are modelled from the specification, and the external
contract executor is an abstract state machine matching its interface
contract.  Storage keys and values are strings, the executor's snapshot
is an association list.
-/

/-- Budget counters read from the host by the budget inspector.
Modelled from the spec: `BudgetInspector.get_cpu_usage(host)` returns
cpu_instructions, memory_bytes, cpu_limit and memory_limit, all as
unsigned integers (`crate::inspector::BudgetInspector` is not among the
provided sources). -/
structure BudgetInfo where
  cpu_instructions : Nat
  memory_bytes : Nat
  cpu_limit : Nat
  memory_limit : Nat
deriving Repr, DecidableEq

/-- Budget part of a trace.  Modelled from the spec: `BudgetTrace` of
`crate::compare::trace` carries the consumed counters and optional
declared limits (the trace module is not among the provided sources;
the field set is the one `engine.rs` populates). -/
structure BudgetTrace where
  cpu_instructions : Nat
  memory_bytes : Nat
  cpu_limit : Option Nat
  memory_limit : Option Nat
deriving Repr, DecidableEq

/-- An event as returned by the executor's `get_events`:
contract identifier, ordered topics, payload data. -/
structure Event where
  contract_id : String
  topics : List String
  data : String
deriving Repr, DecidableEq

/-- Event record of a trace.  Modelled from the spec: `EventEntry` of
`crate::compare::trace` holds the contract identifier, the ordered topic
sequence and an optional payload. -/
structure EventEntry where
  contract_id : String
  topics : List String
  data : Option String
deriving Repr, DecidableEq

/-- One node of the call sequence.  Modelled from the spec: `CallEntry`
of `crate::compare::trace` carries function name, optional argument
string, call depth and an optional budget. -/
structure CallEntry where
  function : String
  args : Option String
  depth : Nat
  budget : Option BudgetTrace
deriving Repr, DecidableEq

/-- The aggregate trace record.  Modelled from the spec:
`ExecutionTrace` of `crate::compare::trace` — schema version, optional
label, contract address, function, args, before/after storage maps,
budget, return value, call sequence and events (exactly the fields
`engine.rs` assembles).  The Rust `return_value` is a JSON string
value wrapping the result; it is embedded as the wrapped string. -/
structure ExecutionTrace where
  version : String
  label : Option String
  contract : Option String
  function : Option String
  args : Option String
  storage_before : List (String × String)
  storage : List (String × String)
  budget : Option BudgetTrace
  return_value : Option String
  call_sequence : List CallEntry
  events : List EventEntry
deriving Repr, DecidableEq

/-- Breakpoint manager.  Modelled from the spec: a set of function-name
strings with idempotent `add`, total `remove` and exact-match
membership test (`crate::debugger::breakpoint` is not among the
provided sources). -/
structure BreakpointManager where
  names : List String
deriving Repr, DecidableEq

/-- Fresh empty breakpoint set. -/
def BreakpointManager.new : BreakpointManager := ⟨[]⟩

/-- Insert a function name; idempotent if already present. -/
def BreakpointManager.add (bm : BreakpointManager) (name : String) : BreakpointManager :=
  if bm.names.contains name then bm else ⟨bm.names ++ [name]⟩

/-- True iff the name is currently registered (exact string match). -/
def BreakpointManager.should_break (bm : BreakpointManager) (name : String) : Bool :=
  bm.names.contains name

/-- Debug state.  Modelled from the spec: holds the name of the function
at which execution is currently paused, optional
(`crate::debugger::state` is not among the provided sources). -/
structure DebugState where
  current_function : Option String
deriving Repr, DecidableEq

/-- Fresh debug state with no current function. -/
def DebugState.new : DebugState := ⟨none⟩

/-- Record the paused function, overwriting any prior value. -/
def DebugState.set_current_function (_ : DebugState) (f : String) : DebugState :=
  ⟨some f⟩

/-- Abstract model of the external `ContractExecutor` and its host,
matching the interface contract consumed by the engine: fallible
`execute`, `get_storage_snapshot` and `get_events`, a contract address,
and the budget counters the budget inspector reads from the host
(read-only, hence a pure function of the executor state). -/
structure ExecutorModel (σ : Type) where
  get_storage_snapshot : σ → Except String (List (String × String) × σ)
  execute : σ → String → Option String → Except String (String × σ)
  get_events : σ → Except String (List Event × σ)
  contract_address : σ → String
  hostBudget : σ → BudgetInfo

/-- Lexicographic strict order on character lists, the order a Rust
`BTreeMap<String, _>` sorts its keys by. -/
def charListLt : List Char → List Char → Bool
  | [], [] => false
  | [], _ :: _ => true
  | _ :: _, [] => false
  | a :: as, b :: bs => if a < b then true else if b < a then false else charListLt as bs

/-- Strict lexicographic order on string keys. -/
def keyLt (a b : String) : Bool := charListLt a.data b.data

/-- BTreeMap insertion on an association list kept sorted by key:
replaces the value at an equal key, otherwise inserts in key order.
Embeds the `BTreeMap::insert` calls of `engine.rs` lines 46-48/62-64. -/
def insertSorted (k v : String) : List (String × String) → List (String × String)
  | [] => [(k, v)]
  | (k2, v2) :: rest =>
    if keyLt k k2 then (k, v) :: (k2, v2) :: rest
    else if k = k2 then (k, v) :: rest
    else (k2, v2) :: insertSorted k v rest

/-- Rebuild of a raw snapshot into a `BTreeMap`, as `engine.rs` does by
inserting every pair of the raw snapshot in iteration order. -/
def buildBTreeMap (raw : List (String × String)) : List (String × String) :=
  raw.foldl (fun m kv => insertSorted kv.1 kv.2 m) []

/-- One entry of a storage diff.  Modelled from the spec:
`StorageInspector.compute_diff` classifies each key as Added (absent
before, present after), Removed (present before, absent after) or
Modified (present in both with different values)
(`crate::inspector::StorageInspector` is not among the provided
sources). -/
inductive DiffEntry where
  | added (key val : String)
  | removed (key oldVal : String)
  | modified (key oldVal newVal : String)
deriving Repr, DecidableEq

/-- Association-list lookup by key. -/
def lookupKey (k : String) : List (String × String) → Option String
  | [] => none
  | (k2, v) :: rest => if k2 = k then some v else lookupKey k rest

/-- Storage diff between two snapshots.  Modelled from the spec:
`compute_diff(before, after)` is a pure function listing each key of
either snapshot at most once, classified per the §3 rules; a key with
equal value in both snapshots never appears. -/
def compute_diff (before after : List (String × String)) : List DiffEntry :=
  (before.filterMap fun kv =>
    match lookupKey kv.1 after with
    | none => some (DiffEntry.removed kv.1 kv.2)
    | some v2 => if v2 = kv.2 then none else some (DiffEntry.modified kv.1 kv.2 v2)) ++
  (after.filterMap fun kv =>
    match lookupKey kv.1 before with
    | none => some (DiffEntry.added kv.1 kv.2)
    | some _ => none)

/-- Observable actions performed by `execute`, in program order: the two
snapshot reads, the single breakpoint evaluation, the pause
notification, the delegated call, the budget and event reads, and the
diff display side effect. -/
inductive EngineAction where
  | snapshotBefore
  | breakCheck (f : String) (hit : Bool)
  | pauseNotify (f : String)
  | delegate (f : String)
  | snapshotAfter
  | readBudget
  | readEvents
  | displayDiff (d : List DiffEntry)
deriving Repr, DecidableEq

/-- The debugger engine state: executor handle, breakpoints, debug
state, pause flag and the single-slot trace cache
(`engine.rs` lines 11-17). -/
structure DebuggerEngine (σ : Type) where
  executor : σ
  breakpoints : BreakpointManager
  state : DebugState
  paused : Bool
  last_trace : Option ExecutionTrace

/-- Engine constructor: adds each initial breakpoint
(`engine.rs` lines 21-37). -/
def DebuggerEngine.new (executor : σ) (initial_breakpoints : List String) :
    DebuggerEngine σ :=
  { executor := executor
    breakpoints := initial_breakpoints.foldl (fun bm bp => bm.add bp) BreakpointManager.new
    state := DebugState.new
    paused := false
    last_trace := none }

/-- `pause_at_function` (`engine.rs` lines 140-144): sets the paused
flag and records the current function. -/
def DebuggerEngine.pause_at_function (eng : DebuggerEngine σ) (f : String) :
    DebuggerEngine σ :=
  { eng with paused := true, state := eng.state.set_current_function f }

/-- Get the trace from the last execution (`engine.rs` lines 119-121). -/
def DebuggerEngine.last_trace_get (eng : DebuggerEngine σ) : Option ExecutionTrace :=
  eng.last_trace

/-- `step` (`engine.rs` lines 124-129): clears the pause flag and
returns success; nothing else changes. -/
def DebuggerEngine.step (eng : DebuggerEngine σ) :
    Except String Unit × DebuggerEngine σ :=
  (Except.ok (), { eng with paused := false })

/-- `continue_execution` (`engine.rs` lines 132-137): clears the pause
flag and returns success; nothing else changes. -/
def DebuggerEngine.continue_execution (eng : DebuggerEngine σ) :
    Except String Unit × DebuggerEngine σ :=
  (Except.ok (), { eng with paused := false })

/-- `is_paused` (`engine.rs` lines 147-149). -/
def DebuggerEngine.is_paused (eng : DebuggerEngine σ) : Bool :=
  eng.paused

/-- `execute` (`engine.rs` lines 40-116), embedded step by step:
before-snapshot and BTreeMap rebuild, entry breakpoint check with
pause, delegated execution, after-snapshot and rebuild, budget capture
(limits wrapped in `some`), event capture, call-sequence and trace
assembly, single-slot trace store, diff computation with conditional
display, and return of the raw result.  The value is the `Result`, the
final engine (Rust mutates `self` in place, so it survives failure),
and the list of performed observable actions. -/
def DebuggerEngine.execute (M : ExecutorModel σ) (eng : DebuggerEngine σ)
    (function : String) (args : Option String) :
    Except String String × DebuggerEngine σ × List EngineAction :=
  match M.get_storage_snapshot eng.executor with
  | Except.error e => (Except.error e, eng, [])
  | Except.ok (storage_before_raw, s1) =>
    let storage_before := buildBTreeMap storage_before_raw
    let hit := eng.breakpoints.should_break function
    let eng1 : DebuggerEngine σ :=
      if hit then ({ eng with executor := s1 }).pause_at_function function
      else { eng with executor := s1 }
    let log1 := [EngineAction.snapshotBefore, EngineAction.breakCheck function hit] ++
      (if hit then [EngineAction.pauseNotify function] else [])
    match M.execute s1 function args with
    | Except.error e => (Except.error e, eng1, log1)
    | Except.ok (result, s2) =>
      let log2 := log1 ++ [EngineAction.delegate function]
      match M.get_storage_snapshot s2 with
      | Except.error e => (Except.error e, { eng1 with executor := s2 }, log2)
      | Except.ok (storage_after_raw, s3) =>
        let storage_after := buildBTreeMap storage_after_raw
        let log3 := log2 ++ [EngineAction.snapshotAfter]
        let budget_info := M.hostBudget s3
        let budget_trace : BudgetTrace :=
          { cpu_instructions := budget_info.cpu_instructions
            memory_bytes := budget_info.memory_bytes
            cpu_limit := some budget_info.cpu_limit
            memory_limit := some budget_info.memory_limit }
        match M.get_events s3 with
        | Except.error e =>
          (Except.error e, { eng1 with executor := s3 }, log3 ++ [EngineAction.readBudget])
        | Except.ok (events_raw, s4) =>
          let events := events_raw.map fun e =>
            { contract_id := e.contract_id
              topics := e.topics
              data := some e.data : EventEntry }
          let call_sequence := [{ function := function
                                  args := args
                                  depth := 0
                                  budget := some budget_trace : CallEntry }]
          let trace : ExecutionTrace :=
            { version := "1.0"
              label := some ("Execution of " ++ function)
              contract := some (M.contract_address s4)
              function := some function
              args := args
              storage_before := storage_before
              storage := storage_after
              budget := some budget_trace
              return_value := some result
              call_sequence := call_sequence
              events := events }
          let eng2 := { eng1 with executor := s4, last_trace := some trace }
          let diff := compute_diff storage_before_raw storage_after_raw
          let log4 := log3 ++ [EngineAction.readBudget, EngineAction.readEvents] ++
            (if diff.isEmpty then [] else [EngineAction.displayDiff diff])
          (Except.ok result, eng2, log4)

/-- `charListLt` is irreflexive. -/
theorem charListLt_irrefl (l : List Char) : charListLt l l = false := by
  induction l with
  | nil => rfl
  | cons a as ih => simp [charListLt, ih]

/-- `charListLt` is asymmetric. -/
theorem charListLt_asymm (l1 : List Char) :
    ∀ l2, charListLt l1 l2 = true → charListLt l2 l1 = false := by
  induction l1 with
  | nil =>
    intro l2 h
    cases l2 with
    | nil => rfl
    | cons b bs => rfl
  | cons a as ih =>
    intro l2 h
    cases l2 with
    | nil => simp [charListLt] at h
    | cons b bs =>
      by_cases hab : a < b
      · have hba : ¬ b < a := not_lt_of_gt hab
        have hne : ¬ b = a := fun he => absurd (he ▸ hab) (lt_irrefl a)
        have : ¬ a = b := fun he => hne he.symm
        simp [charListLt, hba, hab]
      · by_cases hba : b < a
        · simp [charListLt, hab, hba] at h
        · simp only [charListLt, if_neg hab, if_neg hba] at h
          simp [charListLt, hab, hba, ih bs h]

/-- A key below another is not equal to it. -/
theorem keyLt_ne (a b : String) (h : keyLt a b = true) : ¬ a = b := by
  intro he
  rw [he] at h
  rw [keyLt, charListLt_irrefl] at h
  exact Bool.false_ne_true h

/-- A key below another is not above it. -/
theorem keyLt_asymm (a b : String) (h : keyLt a b = true) : keyLt b a = false :=
  charListLt_asymm a.data b.data h

/-- A snapshot in the canonical form of the executor interface: keys
strictly increasing, hence unique. -/
def SortedSnapshot (l : List (String × String)) : Prop :=
  l.Pairwise fun p q => keyLt p.1 q.1 = true

instance (l : List (String × String)) : Decidable (SortedSnapshot l) := by
  unfold SortedSnapshot
  infer_instance

/-- Inserting a key strictly greater than every key of the list appends
it at the end. -/
theorem insertSorted_of_gt (k v : String) (l : List (String × String))
    (h : ∀ p ∈ l, keyLt p.1 k = true) : insertSorted k v l = l ++ [(k, v)] := by
  induction l with
  | nil => rfl
  | cons hd tl ih =>
    have hhd : keyLt hd.1 k = true := h hd (List.mem_cons_self hd tl)
    have hne : keyLt k hd.1 = false := keyLt_asymm hd.1 k hhd
    have hneq : ¬ k = hd.1 := fun he => keyLt_ne hd.1 k hhd he.symm
    cases hd with
    | mk k2 v2 =>
      simp only [insertSorted, hne, Bool.false_eq_true, if_false, if_neg hneq,
        List.cons_append, List.cons.injEq, true_and]
      exact ih fun p hp => h p (List.mem_cons_of_mem _ hp)

/-- Folding BTreeMap insertion over a strictly key-sorted list, starting
from an accumulator whose keys are all smaller, appends the list. -/
theorem foldl_insertSorted_of_sorted (raw : List (String × String)) :
    ∀ acc : List (String × String),
    (∀ p ∈ acc, ∀ q ∈ raw, keyLt p.1 q.1 = true) →
    raw.Pairwise (fun p q => keyLt p.1 q.1 = true) →
    raw.foldl (fun m kv => insertSorted kv.1 kv.2 m) acc = acc ++ raw := by
  induction raw with
  | nil => intro acc _ _; simp
  | cons hd tl ih =>
    intro acc hacc hsort
    have hstep : insertSorted hd.1 hd.2 acc = acc ++ [hd] := by
      have := insertSorted_of_gt hd.1 hd.2 acc
        (fun p hp => hacc p hp hd (List.mem_cons_self hd tl))
      simpa using this
    have hsort2 := (List.pairwise_cons.mp hsort).2
    have hhead := (List.pairwise_cons.mp hsort).1
    simp only [List.foldl_cons, hstep]
    rw [ih (acc ++ [hd]) ?hlt hsort2]
    · simp
    · intro p hp q hq
      rcases List.mem_append.mp hp with hpa | hph
      · exact hacc p hpa q (List.mem_cons_of_mem _ hq)
      · have : p = hd := by simpa using hph
        exact this ▸ hhead q hq

/-- Rebuilding a strictly key-sorted snapshot into a BTreeMap is the
identity: the map comes back in the same order with the same pairs. -/
theorem buildBTreeMap_sorted (raw : List (String × String))
    (h : SortedSnapshot raw) : buildBTreeMap raw = raw := by
  unfold buildBTreeMap
  simpa using foldl_insertSorted_of_sorted raw [] (by intro p hp; cases hp) h

/-- Budget trace built from the inspector's counters: limits wrapped in
`some` as `engine.rs` lines 68-73 do. -/
def budgetOf (b : BudgetInfo) : BudgetTrace :=
  { cpu_instructions := b.cpu_instructions
    memory_bytes := b.memory_bytes
    cpu_limit := some b.cpu_limit
    memory_limit := some b.memory_limit }

/-- Event entry built from a raw event (`engine.rs` lines 77-81). -/
def eventEntryOf (e : Event) : EventEntry :=
  { contract_id := e.contract_id, topics := e.topics, data := some e.data }

/-- The trace `execute` assembles on the success path
(`engine.rs` lines 84-104), as a function of the data read during the
run. -/
def assembledTrace (addr : String) (b : BudgetInfo) (f : String) (a : Option String)
    (rawB rawA : List (String × String)) (r : String) (evs : List Event) :
    ExecutionTrace :=
  { version := "1.0"
    label := some ("Execution of " ++ f)
    contract := some addr
    function := some f
    args := a
    storage_before := buildBTreeMap rawB
    storage := buildBTreeMap rawA
    budget := some (budgetOf b)
    return_value := some r
    call_sequence := [{ function := f, args := a, depth := 0, budget := some (budgetOf b) }]
    events := evs.map eventEntryOf }

/-- The action log of a fully successful `execute`. -/
def okLog (f : String) (hit : Bool) (diff : List DiffEntry) : List EngineAction :=
  [EngineAction.snapshotBefore, EngineAction.breakCheck f hit] ++
  (if hit then [EngineAction.pauseNotify f] else []) ++
  [EngineAction.delegate f, EngineAction.snapshotAfter, EngineAction.readBudget,
    EngineAction.readEvents] ++
  (if diff.isEmpty then [] else [EngineAction.displayDiff diff])

/-- Shape of `execute` when every executor call succeeds: it returns the
executor's result string, stores the assembled trace, applies exactly
the entry-breakpoint pause to the debug state, and performs the logged
actions in program order. -/
theorem execute_ok_shape {σ : Type} (M : ExecutorModel σ) (eng : DebuggerEngine σ)
    (f : String) (a : Option String) (rawB : List (String × String)) (s1 : σ)
    (r : String) (s2 : σ) (rawA : List (String × String)) (s3 : σ)
    (evs : List Event) (s4 : σ)
    (h1 : M.get_storage_snapshot eng.executor = Except.ok (rawB, s1))
    (h2 : M.execute s1 f a = Except.ok (r, s2))
    (h3 : M.get_storage_snapshot s2 = Except.ok (rawA, s3))
    (h4 : M.get_events s3 = Except.ok (evs, s4)) :
    DebuggerEngine.execute M eng f a =
      (Except.ok r,
       { executor := s4
         breakpoints := eng.breakpoints
         state := if eng.breakpoints.should_break f
                  then eng.state.set_current_function f else eng.state
         paused := if eng.breakpoints.should_break f then true else eng.paused
         last_trace := some (assembledTrace (M.contract_address s4) (M.hostBudget s3)
                              f a rawB rawA r evs) },
       okLog f (eng.breakpoints.should_break f) (compute_diff rawB rawA)) := by
  unfold DebuggerEngine.execute
  rw [h1]
  dsimp only
  rw [h2]
  dsimp only
  rw [h3]
  dsimp only
  rw [h4]
  dsimp only
  by_cases hb : eng.breakpoints.should_break f = true
  · simp [hb, okLog, assembledTrace, budgetOf, eventEntryOf,
      DebuggerEngine.pause_at_function, DebugState.set_current_function]
  · simp [hb, okLog, assembledTrace, budgetOf, eventEntryOf,
      DebuggerEngine.pause_at_function]

/-- Concrete executor used to exercise the engine: state is a call
counter; the first snapshot is the "before" map of the spec scenario,
later snapshots the "after" map; `execute` returns "ok". -/
def demoExec : ExecutorModel Nat :=
  { get_storage_snapshot := fun s =>
      if s = 0 then Except.ok ([("balance", "50")], 1)
      else Except.ok ([("balance", "-50"), ("sent", "100")], s + 1)
    execute := fun s _ _ => Except.ok ("ok", s + 1)
    get_events := fun s => Except.ok ([⟨"CID", ["topic"], "payload"⟩], s + 1)
    contract_address := fun _ => "CDEMO"
    hostBudget := fun _ => ⟨100, 64, 1000, 1024⟩ }

/-- Engine over `demoExec` with a breakpoint on "transfer". -/
def demoEngine : DebuggerEngine Nat := DebuggerEngine.new 0 ["transfer"]

/-- Executor whose delegated `execute` always fails. -/
def failExec : ExecutorModel Nat :=
  { get_storage_snapshot := fun s => Except.ok ([("k", "v")], s + 1)
    execute := fun _ _ _ => Except.error "boom"
    get_events := fun s => Except.ok ([], s + 1)
    contract_address := fun _ => "CFAIL"
    hostBudget := fun _ => ⟨0, 0, 0, 0⟩ }

/-- Shape of `execute` when the before-snapshot fails: the error is
returned unchanged, the engine is untouched, nothing was performed. -/
theorem execute_err_snapshot_before {σ : Type} (M : ExecutorModel σ)
    (eng : DebuggerEngine σ) (f : String) (a : Option String) (e : String)
    (h1 : M.get_storage_snapshot eng.executor = Except.error e) :
    DebuggerEngine.execute M eng f a = (Except.error e, eng, []) := by
  unfold DebuggerEngine.execute
  rw [h1]

/-- Shape of `execute` when the delegated call fails: the error is
returned unchanged and only the entry-breakpoint pause (plus the new
executor state) has been applied. -/
theorem execute_err_delegate {σ : Type} (M : ExecutorModel σ)
    (eng : DebuggerEngine σ) (f : String) (a : Option String)
    (rawB : List (String × String)) (s1 : σ) (e : String)
    (h1 : M.get_storage_snapshot eng.executor = Except.ok (rawB, s1))
    (h2 : M.execute s1 f a = Except.error e) :
    DebuggerEngine.execute M eng f a =
      (Except.error e,
       (if eng.breakpoints.should_break f
        then ({ eng with executor := s1 }).pause_at_function f
        else { eng with executor := s1 }),
       [EngineAction.snapshotBefore,
        EngineAction.breakCheck f (eng.breakpoints.should_break f)] ++
       (if eng.breakpoints.should_break f
        then [EngineAction.pauseNotify f] else [])) := by
  unfold DebuggerEngine.execute
  rw [h1]
  dsimp only
  rw [h2]

/-- Shape of `execute` when the after-snapshot fails: the error is
returned unchanged and only the entry-breakpoint pause (plus the new
executor state) has been applied. -/
theorem execute_err_snapshot_after {σ : Type} (M : ExecutorModel σ)
    (eng : DebuggerEngine σ) (f : String) (a : Option String)
    (rawB : List (String × String)) (s1 : σ) (r : String) (s2 : σ) (e : String)
    (h1 : M.get_storage_snapshot eng.executor = Except.ok (rawB, s1))
    (h2 : M.execute s1 f a = Except.ok (r, s2))
    (h3 : M.get_storage_snapshot s2 = Except.error e) :
    DebuggerEngine.execute M eng f a =
      (Except.error e,
       (if eng.breakpoints.should_break f
        then { ({ eng with executor := s1 }).pause_at_function f with executor := s2 }
        else { eng with executor := s2 }),
       [EngineAction.snapshotBefore,
        EngineAction.breakCheck f (eng.breakpoints.should_break f)] ++
       (if eng.breakpoints.should_break f
        then [EngineAction.pauseNotify f] else []) ++
       [EngineAction.delegate f]) := by
  unfold DebuggerEngine.execute
  rw [h1]
  dsimp only
  rw [h2]
  dsimp only
  rw [h3]
  by_cases hb : eng.breakpoints.should_break f = true
  · simp [hb, DebuggerEngine.pause_at_function]
  · simp [hb]

/-- Shape of `execute` when the event read fails: the error is returned
unchanged and only the entry-breakpoint pause (plus the new executor
state) has been applied. -/
theorem execute_err_events {σ : Type} (M : ExecutorModel σ)
    (eng : DebuggerEngine σ) (f : String) (a : Option String)
    (rawB : List (String × String)) (s1 : σ) (r : String) (s2 : σ)
    (rawA : List (String × String)) (s3 : σ) (e : String)
    (h1 : M.get_storage_snapshot eng.executor = Except.ok (rawB, s1))
    (h2 : M.execute s1 f a = Except.ok (r, s2))
    (h3 : M.get_storage_snapshot s2 = Except.ok (rawA, s3))
    (h4 : M.get_events s3 = Except.error e) :
    DebuggerEngine.execute M eng f a =
      (Except.error e,
       (if eng.breakpoints.should_break f
        then { ({ eng with executor := s1 }).pause_at_function f with executor := s3 }
        else { eng with executor := s3 }),
       [EngineAction.snapshotBefore,
        EngineAction.breakCheck f (eng.breakpoints.should_break f)] ++
       (if eng.breakpoints.should_break f
        then [EngineAction.pauseNotify f] else []) ++
       [EngineAction.delegate f, EngineAction.snapshotAfter, EngineAction.readBudget]) := by
  unfold DebuggerEngine.execute
  rw [h1]
  dsimp only
  rw [h2]
  dsimp only
  rw [h3]
  dsimp only
  rw [h4]
  by_cases hb : eng.breakpoints.should_break f = true
  · simp [hb, DebuggerEngine.pause_at_function]
  · simp [hb]

/-- C4: `step` and `continue_execution` each set the paused flag to
false unconditionally, change nothing else (debug state, breakpoint
set, stored last trace and executor handle all unchanged), and return
success. -/
theorem claim_C4_step_continue {σ : Type} (eng : DebuggerEngine σ) :
    eng.step.1 = Except.ok () ∧
    eng.step.2.is_paused = false ∧
    eng.step.2.state = eng.state ∧
    eng.step.2.breakpoints = eng.breakpoints ∧
    eng.step.2.last_trace = eng.last_trace ∧
    eng.step.2.executor = eng.executor ∧
    eng.continue_execution.1 = Except.ok () ∧
    eng.continue_execution.2.is_paused = false ∧
    eng.continue_execution.2.state = eng.state ∧
    eng.continue_execution.2.breakpoints = eng.breakpoints ∧
    eng.continue_execution.2.last_trace = eng.last_trace ∧
    eng.continue_execution.2.executor = eng.executor :=
  ⟨rfl, rfl, rfl, rfl, rfl, rfl, rfl, rfl, rfl, rfl, rfl, rfl⟩

/-- C5 as stated is false: pausing at "f" and then resuming via `step`
leaves the current-function record at some "f"; it is not cleared to
none on resume. -/
theorem claim_C5_counterexample :
    ¬ ((((DebuggerEngine.new (0 : Nat) []).pause_at_function "f").step.2.state.current_function)
        = none) := by
  decide

/-- C5 (amended): the current-function record is set exactly when the
engine transitions into the paused state (`pause_at_function` sets both
together), but it is retained, not cleared, on resume: `step` and
`continue_execution` leave the debug state unchanged. -/
theorem claim_C5_amended {σ : Type} (eng : DebuggerEngine σ) (f : String) :
    (eng.pause_at_function f).paused = true ∧
    (eng.pause_at_function f).state.current_function = some f ∧
    eng.step.2.state = eng.state ∧
    eng.continue_execution.2.state = eng.state :=
  ⟨rfl, rfl, rfl, rfl⟩

/-- C1: after a successful `execute f a`, `last_trace` returns some
trace whose function field equals f and whose storage_before / storage
fields equal the snapshots the executor returned before and after the
delegated call. -/
theorem claim_C1_trace_fields {σ : Type} (M : ExecutorModel σ) (eng : DebuggerEngine σ)
    (f : String) (a : Option String) (rawB : List (String × String)) (s1 : σ)
    (r : String) (s2 : σ) (rawA : List (String × String)) (s3 : σ)
    (evs : List Event) (s4 : σ)
    (h1 : M.get_storage_snapshot eng.executor = Except.ok (rawB, s1))
    (h2 : M.execute s1 f a = Except.ok (r, s2))
    (h3 : M.get_storage_snapshot s2 = Except.ok (rawA, s3))
    (h4 : M.get_events s3 = Except.ok (evs, s4))
    (hsB : SortedSnapshot rawB) (hsA : SortedSnapshot rawA) :
    ∃ t : ExecutionTrace,
      (DebuggerEngine.execute M eng f a).2.1.last_trace_get = some t ∧
      t.function = some f ∧ t.storage_before = rawB ∧ t.storage = rawA := by
  rw [DebuggerEngine.last_trace_get,
    execute_ok_shape M eng f a rawB s1 r s2 rawA s3 evs s4 h1 h2 h3 h4]
  refine ⟨_, rfl, rfl, ?_, ?_⟩
  · exact buildBTreeMap_sorted rawB hsB
  · exact buildBTreeMap_sorted rawA hsA

/-- C1 witness: the demo run stores a trace with function "transfer"
and the two demo snapshots. -/
theorem claim_C1_witness :
    ∃ t : ExecutionTrace,
      (DebuggerEngine.execute demoExec demoEngine "transfer" (some "100")).2.1.last_trace_get
        = some t ∧
      t.function = some "transfer" ∧
      t.storage_before = [("balance", "50")] ∧
      t.storage = [("balance", "-50"), ("sent", "100")] :=
  claim_C1_trace_fields demoExec demoEngine "transfer" (some "100")
    [("balance", "50")] 1 "ok" 2 [("balance", "-50"), ("sent", "100")] 3
    [⟨"CID", ["topic"], "payload"⟩] 4 rfl rfl rfl rfl (by decide) (by decide)

/-- C6: on a successful `execute` obtaining result r from the executor,
the stored trace carries schema version "1.0" and the generated label,
its return_value equals r, the stored trace is the same regardless of
any previously stored trace (wholesale replacement), and r is the value
returned to the caller. -/
theorem claim_C6_trace_version_result {σ : Type} (M : ExecutorModel σ)
    (eng : DebuggerEngine σ)
    (f : String) (a : Option String) (rawB : List (String × String)) (s1 : σ)
    (r : String) (s2 : σ) (rawA : List (String × String)) (s3 : σ)
    (evs : List Event) (s4 : σ) (t0 : Option ExecutionTrace)
    (h1 : M.get_storage_snapshot eng.executor = Except.ok (rawB, s1))
    (h2 : M.execute s1 f a = Except.ok (r, s2))
    (h3 : M.get_storage_snapshot s2 = Except.ok (rawA, s3))
    (h4 : M.get_events s3 = Except.ok (evs, s4)) :
    (DebuggerEngine.execute M eng f a).1 = Except.ok r ∧
    (∃ t : ExecutionTrace,
      (DebuggerEngine.execute M eng f a).2.1.last_trace = some t ∧
      t.version = "1.0" ∧
      t.label = some ("Execution of " ++ f) ∧
      t.return_value = some r) ∧
    (DebuggerEngine.execute M { eng with last_trace := t0 } f a).2.1.last_trace =
      (DebuggerEngine.execute M eng f a).2.1.last_trace := by
  have hshape := execute_ok_shape M eng f a rawB s1 r s2 rawA s3 evs s4 h1 h2 h3 h4
  have hshape2 := execute_ok_shape M { eng with last_trace := t0 } f a rawB s1 r s2
    rawA s3 evs s4 h1 h2 h3 h4
  rw [hshape, hshape2]
  exact ⟨rfl, ⟨_, rfl, rfl, rfl, rfl⟩, rfl⟩

/-- C6 witness: the demo run returns "ok" and stores a version-"1.0"
trace labelled for "transfer" with return_value "ok", independent of
the previously stored trace. -/
theorem claim_C6_witness :
    (DebuggerEngine.execute demoExec demoEngine "transfer" (some "100")).1 =
      Except.ok "ok" ∧
    (∃ t : ExecutionTrace,
      (DebuggerEngine.execute demoExec demoEngine "transfer" (some "100")).2.1.last_trace
        = some t ∧
      t.version = "1.0" ∧
      t.label = some ("Execution of " ++ "transfer") ∧
      t.return_value = some "ok") ∧
    (DebuggerEngine.execute demoExec { demoEngine with last_trace := none }
        "transfer" (some "100")).2.1.last_trace =
      (DebuggerEngine.execute demoExec demoEngine "transfer" (some "100")).2.1.last_trace :=
  claim_C6_trace_version_result demoExec demoEngine "transfer" (some "100")
    [("balance", "50")] 1 "ok" 2 [("balance", "-50"), ("sent", "100")] 3
    [⟨"CID", ["topic"], "payload"⟩] 4 none rfl rfl rfl rfl

/-- C7: on a successful `execute f a`, the stored trace's call sequence
is exactly one CallEntry with depth 0, function f, args a, and the
budget snapshot read from the host for this execution. -/
theorem claim_C7_call_sequence {σ : Type} (M : ExecutorModel σ)
    (eng : DebuggerEngine σ)
    (f : String) (a : Option String) (rawB : List (String × String)) (s1 : σ)
    (r : String) (s2 : σ) (rawA : List (String × String)) (s3 : σ)
    (evs : List Event) (s4 : σ)
    (h1 : M.get_storage_snapshot eng.executor = Except.ok (rawB, s1))
    (h2 : M.execute s1 f a = Except.ok (r, s2))
    (h3 : M.get_storage_snapshot s2 = Except.ok (rawA, s3))
    (h4 : M.get_events s3 = Except.ok (evs, s4)) :
    ∃ t : ExecutionTrace,
      (DebuggerEngine.execute M eng f a).2.1.last_trace = some t ∧
      t.call_sequence =
        [{ function := f, args := a, depth := 0,
           budget := some (budgetOf (M.hostBudget s3)) }] := by
  rw [execute_ok_shape M eng f a rawB s1 r s2 rawA s3 evs s4 h1 h2 h3 h4]
  exact ⟨_, rfl, rfl⟩

/-- C7 witness: the demo run's call sequence is the single depth-0
entry for "transfer" with args "100" and the demo budget. -/
theorem claim_C7_witness :
    ∃ t : ExecutionTrace,
      (DebuggerEngine.execute demoExec demoEngine "transfer" (some "100")).2.1.last_trace
        = some t ∧
      t.call_sequence =
        [{ function := "transfer", args := some "100", depth := 0,
           budget := some (budgetOf (demoExec.hostBudget 3)) }] :=
  claim_C7_call_sequence demoExec demoEngine "transfer" (some "100")
    [("balance", "50")] 1 "ok" 2 [("balance", "-50"), ("sent", "100")] 3
    [⟨"CID", ["topic"], "payload"⟩] 4 rfl rfl rfl rfl

/-- C8: on a successful `execute`, the stored trace's events field has
exactly one EventEntry per event returned by the executor's event read,
in the same order, each carrying that event's contract identifier,
topics and payload data. -/
theorem claim_C8_events {σ : Type} (M : ExecutorModel σ)
    (eng : DebuggerEngine σ)
    (f : String) (a : Option String) (rawB : List (String × String)) (s1 : σ)
    (r : String) (s2 : σ) (rawA : List (String × String)) (s3 : σ)
    (evs : List Event) (s4 : σ)
    (h1 : M.get_storage_snapshot eng.executor = Except.ok (rawB, s1))
    (h2 : M.execute s1 f a = Except.ok (r, s2))
    (h3 : M.get_storage_snapshot s2 = Except.ok (rawA, s3))
    (h4 : M.get_events s3 = Except.ok (evs, s4)) :
    ∃ t : ExecutionTrace,
      (DebuggerEngine.execute M eng f a).2.1.last_trace = some t ∧
      t.events = evs.map (fun e =>
        { contract_id := e.contract_id, topics := e.topics, data := some e.data }) ∧
      t.events.length = evs.length := by
  rw [execute_ok_shape M eng f a rawB s1 r s2 rawA s3 evs s4 h1 h2 h3 h4]
  exact ⟨_, rfl, rfl, by simp [assembledTrace]⟩

/-- C8 witness: the demo run's trace holds exactly the one demo event,
with its contract id, topics and payload. -/
theorem claim_C8_witness :
    ∃ t : ExecutionTrace,
      (DebuggerEngine.execute demoExec demoEngine "transfer" (some "100")).2.1.last_trace
        = some t ∧
      t.events = ([⟨"CID", ["topic"], "payload"⟩] : List Event).map (fun e =>
        { contract_id := e.contract_id, topics := e.topics, data := some e.data }) ∧
      t.events.length = ([⟨"CID", ["topic"], "payload"⟩] : List Event).length :=
  claim_C8_events demoExec demoEngine "transfer" (some "100")
    [("balance", "50")] 1 "ok" 2 [("balance", "-50"), ("sent", "100")] 3
    [⟨"CID", ["topic"], "payload"⟩] 4 rfl rfl rfl rfl

/-- C10: in every trace stored by a successful `execute`, the budget
field is populated, and within it both cpu_limit and memory_limit are
populated (wrapped in some from the host's counters). -/
theorem claim_C10_budget_limits {σ : Type} (M : ExecutorModel σ)
    (eng : DebuggerEngine σ)
    (f : String) (a : Option String) (rawB : List (String × String)) (s1 : σ)
    (r : String) (s2 : σ) (rawA : List (String × String)) (s3 : σ)
    (evs : List Event) (s4 : σ)
    (h1 : M.get_storage_snapshot eng.executor = Except.ok (rawB, s1))
    (h2 : M.execute s1 f a = Except.ok (r, s2))
    (h3 : M.get_storage_snapshot s2 = Except.ok (rawA, s3))
    (h4 : M.get_events s3 = Except.ok (evs, s4)) :
    ∃ t : ExecutionTrace, ∃ bt : BudgetTrace,
      (DebuggerEngine.execute M eng f a).2.1.last_trace = some t ∧
      t.budget = some bt ∧
      (∃ x, bt.cpu_limit = some x) ∧ (∃ y, bt.memory_limit = some y) := by
  rw [execute_ok_shape M eng f a rawB s1 r s2 rawA s3 evs s4 h1 h2 h3 h4]
  exact ⟨_, budgetOf (M.hostBudget s3), rfl, rfl, ⟨_, rfl⟩, ⟨_, rfl⟩⟩

/-- C10 witness: the demo run's trace has a populated budget with both
limits present. -/
theorem claim_C10_witness :
    ∃ t : ExecutionTrace, ∃ bt : BudgetTrace,
      (DebuggerEngine.execute demoExec demoEngine "transfer" (some "100")).2.1.last_trace
        = some t ∧
      t.budget = some bt ∧
      (∃ x, bt.cpu_limit = some x) ∧ (∃ y, bt.memory_limit = some y) :=
  claim_C10_budget_limits demoExec demoEngine "transfer" (some "100")
    [("balance", "50")] 1 "ok" 2 [("balance", "-50"), ("sent", "100")] 3
    [⟨"CID", ["topic"], "payload"⟩] 4 rfl rfl rfl rfl

/-- C9: on a successful `execute`, the display side effect is performed
iff the computed diff between the before and after snapshots is
non-empty, what is displayed is exactly that diff, and the value
returned to the caller is the executor's raw result string (the diff is
not part of it). -/
theorem claim_C9_diff_display {σ : Type} (M : ExecutorModel σ)
    (eng : DebuggerEngine σ)
    (f : String) (a : Option String) (rawB : List (String × String)) (s1 : σ)
    (r : String) (s2 : σ) (rawA : List (String × String)) (s3 : σ)
    (evs : List Event) (s4 : σ)
    (h1 : M.get_storage_snapshot eng.executor = Except.ok (rawB, s1))
    (h2 : M.execute s1 f a = Except.ok (r, s2))
    (h3 : M.get_storage_snapshot s2 = Except.ok (rawA, s3))
    (h4 : M.get_events s3 = Except.ok (evs, s4)) :
    (DebuggerEngine.execute M eng f a).1 = Except.ok r ∧
    ((∃ d, EngineAction.displayDiff d ∈ (DebuggerEngine.execute M eng f a).2.2) ↔
      compute_diff rawB rawA ≠ []) ∧
    (∀ d, EngineAction.displayDiff d ∈ (DebuggerEngine.execute M eng f a).2.2 →
      d = compute_diff rawB rawA) := by
  rw [execute_ok_shape M eng f a rawB s1 r s2 rawA s3 evs s4 h1 h2 h3 h4]
  refine ⟨rfl, ?_, ?_⟩ <;>
    by_cases hb : eng.breakpoints.should_break f = true <;>
      cases hdc : compute_diff rawB rawA with
      | nil => simp [okLog, hb]
      | cons x xs => simp [okLog, hb]

/-- C9 witness: the demo run returns "ok", its diff is non-empty and is
displayed, and only that diff is displayed. -/
theorem claim_C9_witness :
    (DebuggerEngine.execute demoExec demoEngine "transfer" (some "100")).1 =
      Except.ok "ok" ∧
    ((∃ d, EngineAction.displayDiff d ∈
        (DebuggerEngine.execute demoExec demoEngine "transfer" (some "100")).2.2) ↔
      compute_diff [("balance", "50")] [("balance", "-50"), ("sent", "100")] ≠ []) ∧
    (∀ d, EngineAction.displayDiff d ∈
        (DebuggerEngine.execute demoExec demoEngine "transfer" (some "100")).2.2 →
      d = compute_diff [("balance", "50")] [("balance", "-50"), ("sent", "100")]) :=
  claim_C9_diff_display demoExec demoEngine "transfer" (some "100")
    [("balance", "50")] 1 "ok" 2 [("balance", "-50"), ("sent", "100")] 3
    [⟨"CID", ["topic"], "payload"⟩] 4 rfl rfl rfl rfl

/-- Recognizer for the breakpoint-evaluation action. -/
def isBreakCheckAct : EngineAction → Bool
  | EngineAction.breakCheck _ _ => true
  | _ => false

/-- C3: calling `execute` on a breakpointed function pauses the engine
(pause flag set, f recorded in the debug state) before delegating — it
holds even when the delegated call fails — and the breakpoint check is
performed exactly once, immediately after the before-snapshot, never
again later in the run. -/
theorem claim_C3_breakpoint_entry {σ : Type} (M : ExecutorModel σ)
    (eng : DebuggerEngine σ) (f : String) (a : Option String)
    (rawB : List (String × String)) (s1 : σ)
    (hbp : eng.breakpoints.should_break f = true)
    (h1 : M.get_storage_snapshot eng.executor = Except.ok (rawB, s1)) :
    (DebuggerEngine.execute M eng f a).2.1.is_paused = true ∧
    (DebuggerEngine.execute M eng f a).2.1.state.current_function = some f ∧
    List.filter isBreakCheckAct (DebuggerEngine.execute M eng f a).2.2 =
      [EngineAction.breakCheck f true] ∧
    List.take 2 (DebuggerEngine.execute M eng f a).2.2 =
      [EngineAction.snapshotBefore, EngineAction.breakCheck f true] := by
  cases h2 : M.execute s1 f a with
  | error e =>
    rw [execute_err_delegate M eng f a rawB s1 e h1 h2]
    simp [hbp, DebuggerEngine.is_paused, DebuggerEngine.pause_at_function,
      DebugState.set_current_function, isBreakCheckAct]
  | ok p2 =>
    obtain ⟨r, s2⟩ := p2
    cases h3 : M.get_storage_snapshot s2 with
    | error e =>
      rw [execute_err_snapshot_after M eng f a rawB s1 r s2 e h1 h2 h3]
      simp [hbp, DebuggerEngine.is_paused, DebuggerEngine.pause_at_function,
        DebugState.set_current_function, isBreakCheckAct]
    | ok p3 =>
      obtain ⟨rawA, s3⟩ := p3
      cases h4 : M.get_events s3 with
      | error e =>
        rw [execute_err_events M eng f a rawB s1 r s2 rawA s3 e h1 h2 h3 h4]
        simp [hbp, DebuggerEngine.is_paused, DebuggerEngine.pause_at_function,
          DebugState.set_current_function, isBreakCheckAct]
      | ok p4 =>
        obtain ⟨evs, s4⟩ := p4
        rw [execute_ok_shape M eng f a rawB s1 r s2 rawA s3 evs s4 h1 h2 h3 h4]
        cases hdc : compute_diff rawB rawA with
        | nil =>
          simp [hbp, okLog, DebuggerEngine.is_paused, DebugState.set_current_function,
            isBreakCheckAct]
        | cons x xs =>
          simp [hbp, okLog, DebuggerEngine.is_paused, DebugState.set_current_function,
            isBreakCheckAct]

/-- C3 witness: the demo run on breakpointed "transfer" pauses, records
"transfer", and checks the breakpoint exactly once, right after the
before-snapshot. -/
theorem claim_C3_witness :
    (DebuggerEngine.execute demoExec demoEngine "transfer" (some "100")).2.1.is_paused
      = true ∧
    (DebuggerEngine.execute demoExec demoEngine "transfer" (some "100")).2.1.state.current_function
      = some "transfer" ∧
    List.filter isBreakCheckAct
        (DebuggerEngine.execute demoExec demoEngine "transfer" (some "100")).2.2 =
      [EngineAction.breakCheck "transfer" true] ∧
    List.take 2 (DebuggerEngine.execute demoExec demoEngine "transfer" (some "100")).2.2 =
      [EngineAction.snapshotBefore, EngineAction.breakCheck "transfer" true] :=
  claim_C3_breakpoint_entry demoExec demoEngine "transfer" (some "100")
    [("balance", "50")] 1 (by decide) rfl

/-- Engine used to exercise the failure path: no breakpoints, over
`failExec`. -/
def failEngine : DebuggerEngine Nat := DebuggerEngine.new 0 []

/-- C2: when any executor call made during `execute` fails, the error
is propagated unchanged (it is exactly the error of the delegated
execution, one of the snapshot reads, or the event read), the stored
last trace and the breakpoint set are unchanged, and the pause flag and
debug state are either untouched or reflect exactly the
entry-breakpoint pause. -/
theorem claim_C2_error_propagation {σ : Type} (M : ExecutorModel σ)
    (eng : DebuggerEngine σ) (f : String) (a : Option String) (e : String)
    (he : (DebuggerEngine.execute M eng f a).1 = Except.error e) :
    (DebuggerEngine.execute M eng f a).2.1.last_trace = eng.last_trace ∧
    (DebuggerEngine.execute M eng f a).2.1.breakpoints = eng.breakpoints ∧
    ((DebuggerEngine.execute M eng f a).2.1.paused = eng.paused ∧
       (DebuggerEngine.execute M eng f a).2.1.state = eng.state ∨
     eng.breakpoints.should_break f = true ∧
       (DebuggerEngine.execute M eng f a).2.1.paused = true ∧
       (DebuggerEngine.execute M eng f a).2.1.state.current_function = some f) ∧
    (M.get_storage_snapshot eng.executor = Except.error e ∨
     ∃ rawB s1, M.get_storage_snapshot eng.executor = Except.ok (rawB, s1) ∧
       (M.execute s1 f a = Except.error e ∨
        ∃ r s2, M.execute s1 f a = Except.ok (r, s2) ∧
          (M.get_storage_snapshot s2 = Except.error e ∨
           ∃ rawA s3, M.get_storage_snapshot s2 = Except.ok (rawA, s3) ∧
             M.get_events s3 = Except.error e))) := by
  cases h1 : M.get_storage_snapshot eng.executor with
  | error e1 =>
    have hx := execute_err_snapshot_before M eng f a e1 h1
    rw [hx] at he
    obtain rfl : e1 = e := by
      simpa using he
    rw [hx]
    exact ⟨rfl, rfl, Or.inl ⟨rfl, rfl⟩, Or.inl rfl⟩
  | ok p1 =>
    obtain ⟨rawB, s1⟩ := p1
    cases h2 : M.execute s1 f a with
    | error e2 =>
      have hx := execute_err_delegate M eng f a rawB s1 e2 h1 h2
      rw [hx] at he
      obtain rfl : e2 = e := by simpa using he
      rw [hx]
      by_cases hb : eng.breakpoints.should_break f = true
      · simp only [hb, if_true]
        exact ⟨rfl, rfl, Or.inr ⟨trivial, rfl, rfl⟩,
          Or.inr ⟨rawB, s1, rfl, Or.inl h2⟩⟩
      · simp only [hb, if_false]
        exact ⟨rfl, rfl, Or.inl ⟨rfl, rfl⟩,
          Or.inr ⟨rawB, s1, rfl, Or.inl h2⟩⟩
    | ok p2 =>
      obtain ⟨r, s2⟩ := p2
      cases h3 : M.get_storage_snapshot s2 with
      | error e3 =>
        have hx := execute_err_snapshot_after M eng f a rawB s1 r s2 e3 h1 h2 h3
        rw [hx] at he
        obtain rfl : e3 = e := by simpa using he
        rw [hx]
        by_cases hb : eng.breakpoints.should_break f = true
        · simp only [hb, if_true]
          exact ⟨rfl, rfl, Or.inr ⟨trivial, rfl, rfl⟩,
            Or.inr ⟨rawB, s1, rfl, Or.inr ⟨r, s2, h2, Or.inl h3⟩⟩⟩
        · simp only [hb, if_false]
          exact ⟨rfl, rfl, Or.inl ⟨rfl, rfl⟩,
            Or.inr ⟨rawB, s1, rfl, Or.inr ⟨r, s2, h2, Or.inl h3⟩⟩⟩
      | ok p3 =>
        obtain ⟨rawA, s3⟩ := p3
        cases h4 : M.get_events s3 with
        | error e4 =>
          have hx := execute_err_events M eng f a rawB s1 r s2 rawA s3 e4 h1 h2 h3 h4
          rw [hx] at he
          obtain rfl : e4 = e := by simpa using he
          rw [hx]
          by_cases hb : eng.breakpoints.should_break f = true
          · simp only [hb, if_true]
            exact ⟨rfl, rfl, Or.inr ⟨trivial, rfl, rfl⟩,
              Or.inr ⟨rawB, s1, rfl, Or.inr ⟨r, s2, h2,
                Or.inr ⟨rawA, s3, h3, h4⟩⟩⟩⟩
          · simp only [hb, if_false]
            exact ⟨rfl, rfl, Or.inl ⟨rfl, rfl⟩,
              Or.inr ⟨rawB, s1, rfl, Or.inr ⟨r, s2, h2,
                Or.inr ⟨rawA, s3, h3, h4⟩⟩⟩⟩
        | ok p4 =>
          obtain ⟨evs, s4⟩ := p4
          rw [execute_ok_shape M eng f a rawB s1 r s2 rawA s3 evs s4 h1 h2 h3 h4] at he
          simp at he

/-- C2 witness: on the failing executor, `execute` surfaces "boom"
unchanged, leaves the last trace and breakpoints untouched, applies no
pause (no breakpoint was hit), and the failing call is the delegated
execution. -/
theorem claim_C2_witness :
    (DebuggerEngine.execute failExec failEngine "foo" none).2.1.last_trace =
      failEngine.last_trace ∧
    (DebuggerEngine.execute failExec failEngine "foo" none).2.1.breakpoints =
      failEngine.breakpoints ∧
    ((DebuggerEngine.execute failExec failEngine "foo" none).2.1.paused =
       failEngine.paused ∧
       (DebuggerEngine.execute failExec failEngine "foo" none).2.1.state =
         failEngine.state ∨
     failEngine.breakpoints.should_break "foo" = true ∧
       (DebuggerEngine.execute failExec failEngine "foo" none).2.1.paused = true ∧
       (DebuggerEngine.execute failExec failEngine "foo" none).2.1.state.current_function
         = some "foo") ∧
    (failExec.get_storage_snapshot failEngine.executor = Except.error "boom" ∨
     ∃ rawB s1, failExec.get_storage_snapshot failEngine.executor = Except.ok (rawB, s1) ∧
       (failExec.execute s1 "foo" none = Except.error "boom" ∨
        ∃ r s2, failExec.execute s1 "foo" none = Except.ok (r, s2) ∧
          (failExec.get_storage_snapshot s2 = Except.error "boom" ∨
           ∃ rawA s3, failExec.get_storage_snapshot s2 = Except.ok (rawA, s3) ∧
             failExec.get_events s3 = Except.error "boom"))) :=
  claim_C2_error_propagation failExec failEngine "foo" none "boom" rfl
